import Mathlib

/-!
Verification of the hailuo-free-api protocol-translation core against its
natural-language specification.  The TypeScript sources are shallowly
embedded: strings are lists of characters (`Str`), JavaScript's
`String.prototype.substring` clamping/swapping semantics are modelled
explicitly, the single-threaded event-loop interleavings relevant to the
device-session cache are modelled as explicit state-passing functions, and
the retrying orchestrator is an explicit fuel-bounded loop over an oracle of
per-attempt outcomes.
-/

/-- Character-list strings, the shallow embedding of JS strings. -/
abbrev Str := List Char

deriving instance DecidableEq for Except

/-- Clamp an integer index into `[0, len]`, as JS `substring` does. -/
def jsClamp (i : Int) (len : Nat) : Nat := (min (max i 0) (len : Int)).toNat

/-- JS `s.substring(a, b)`: both arguments are clamped into `[0, s.length]`
and swapped when out of order; the result is the slice between them.
Never throws and never reads a negative length. -/
def jsSubstring (s : Str) (a b : Int) : Str :=
  (s.take (max (jsClamp a s.length) (jsClamp b s.length))).drop
    (min (jsClamp a s.length) (jsClamp b s.length))

theorem jsClamp_le (i : Int) (len : Nat) : jsClamp i len ≤ len := by
  unfold jsClamp
  have h : min (max i 0) (len : Int) ≤ (len : Int) := min_le_right _ _
  omega

theorem jsClamp_of_ge (i : Int) (len : Nat) (h : (len : Int) ≤ i) :
    jsClamp i len = len := by
  unfold jsClamp
  have h0 : (0 : Int) ≤ len := Int.natCast_nonneg len
  have hmm : min (max i 0) (len : Int) = (len : Int) := by omega
  rw [hmm]
  exact Int.toNat_natCast len

/-- With the end index at `s.length`, JS `substring` is a suffix drop at the
clamped start index. -/
theorem jsSubstring_toEnd (s : Str) (a : Int) :
    jsSubstring s a s.length = s.drop (jsClamp a s.length) := by
  unfold jsSubstring
  have hb : jsClamp (s.length : Int) s.length = s.length :=
    jsClamp_of_ge _ _ le_rfl
  have ha : jsClamp a s.length ≤ s.length := jsClamp_le a s.length
  rw [hb, max_eq_right ha, min_eq_left ha, List.take_length]

/-- First index of a character in a string, JS `indexOf` (`none` for -1). -/
def firstIdx (a : Char) : Str → Option Nat
  | [] => none
  | c :: r => if c = a then some 0 else (firstIdx a r).map (· + 1)

theorem firstIdx_not_mem_take (a : Char) (l : Str) (e : Nat)
    (h : firstIdx a l = some e) : a ∉ l.take e := by
  induction l generalizing e with
  | nil => simp [firstIdx] at h
  | cons c r ih =>
    by_cases hc : c = a
    · simp [firstIdx, hc] at h
      subst h
      simp
    · simp [firstIdx, hc] at h
      obtain ⟨e', he', rfl⟩ := h
      intro hmem
      rw [List.take_succ_cons] at hmem
      rcases List.mem_cons.mp hmem with rfl | hm
      · exact hc rfl
      · exact ih e' he' hm

theorem firstIdx_lt_length (a : Char) (l : Str) (e : Nat)
    (h : firstIdx a l = some e) : e < l.length := by
  induction l generalizing e with
  | nil => simp [firstIdx] at h
  | cons c r ih =>
    by_cases hc : c = a
    · simp [firstIdx, hc] at h
      subst h
      simp
    · simp [firstIdx, hc] at h
      obtain ⟨e', he', rfl⟩ := h
      have := ih e' he'
      simp only [List.length_cons]
      omega

/-- Test for a run of `n` consecutive decimal digits, the JS regex
`/[0-9]{n}/.test`. -/
def hasDigitRun (n : Nat) : Str → Bool
  | [] => n = 0
  | c :: r =>
    (((c :: r).take n).length = n && ((c :: r).take n).all Char.isDigit)
      || hasDigitRun n r

/-- Association-list lookup keyed by string (a JS object / `Map.get`). -/
def lookupA {α : Type} : List (String × α) → String → Option α
  | [], _ => none
  | (k', v') :: r, k => if k' = k then some v' else lookupA r k

/-- Association-list insert/replace (a JS object write / `Map.set`). -/
def insertA {α : Type} : List (String × α) → String → α → List (String × α)
  | [], k, v => [(k, v)]
  | (k', v') :: r, k, v =>
    if k' = k then (k, v) :: r else (k', v') :: insertA r k v

/-- Association-list delete (JS `delete` / `Map.delete`). -/
def removeA {α : Type} (l : List (String × α)) (k : String) :
    List (String × α) :=
  l.filter (fun p => p.1 ≠ k)

theorem lookupA_insertA {α : Type} (l : List (String × α)) (k : String)
    (v : α) : lookupA (insertA l k v) k = some v := by
  induction l with
  | nil => simp [insertA, lookupA]
  | cons p r ih =>
    by_cases h : p.1 = k
    · simp [insertA, h, lookupA]
    · simp [insertA, h, lookupA, ih]

/-! ## DeviceSessionManager (`src/api/controllers/core.ts`)

`requestDeviceInfo` implements single-flight coalescing with a queue of
resolver callbacks per token; `acquireDeviceInfo` is the cache wrapper.
JavaScript is single-threaded, so the N concurrent callers of the claimed
scenario each run their synchronous prefix (cache lookup and queue check) in
arrival order before the single upstream response settles; the model below
threads that interleaving explicitly. -/

/-- Device registration TTL, `DEVICE_INFO_EXPIRES` in core.ts. -/
def DEVICE_INFO_EXPIRES : Nat := 10800

structure DeviceInfo where
  deviceId : String
  userId : String
  refreshTime : Nat
deriving DecidableEq, Repr

/-- A JS value stored in `deviceInfoMap` or handed to a resolver: either a
device-info object or an `Error` object (the `.catch` in
`requestDeviceInfo` resolves queued waiters with the error value itself). -/
inductive JVal where
  | dev (d : DeviceInfo)
  | jerr (msg : String)
deriving DecidableEq, Repr

structure CoreState where
  /-- `deviceInfoMap` -/
  deviceInfoMap : List (String × JVal)
  /-- `deviceInfoRequestQueueMap`: token ↦ number of queued resolvers -/
  inflight : List (String × Nat)
deriving DecidableEq, Repr

def emptyCoreState : CoreState := ⟨[], []⟩

/-- Synchronous prefix of `requestDeviceInfo` (core.ts lines 63-68): if a
queue exists for the token the caller enqueues itself and suspends
(returns `false` = no upstream request issued); otherwise it installs an
empty queue and issues the registration request (`true`). -/
def requestDeviceInfoEnter (st : CoreState) (token : String) :
    CoreState × Bool :=
  match lookupA st.inflight token with
  | some q => ({ st with inflight := insertA st.inflight token (q + 1) }, false)
  | none => ({ st with inflight := insertA st.inflight token 0 }, true)

/-- The value the settled registration hands around: on success the object
`{deviceId, userId, refreshTime = now + TTL}` built at core.ts lines 84-88,
on failure the `Error` itself (the `.catch` at lines 98-104 returns it). -/
def regValue (uid : String) (outcome : Except String String) (ts : Nat) :
    JVal :=
  match outcome with
  | .ok idStr => .dev ⟨idStr, uid, ts + DEVICE_INFO_EXPIRES⟩
  | .error m => .jerr m

/-- Settlement of the single in-flight registration (core.ts lines 90-114).
Every queued resolver is called with the result value — also when that
value is an `Error` — and the queue entry is deleted.  The initiator alone
re-checks `_.isError(result)` and throws; a queued waiter's promise simply
resolves with the value.  Returns (state, initiator result, waiter value). -/
def requestDeviceInfoSettle (st : CoreState) (token uid : String)
    (outcome : Except String String) (ts : Nat) :
    CoreState × Except String JVal × JVal :=
  ({ st with inflight := removeA st.inflight token },
   match regValue uid outcome ts with
   | .dev d => .ok (.dev d)
   | .jerr m => .error m,
   regValue uid outcome ts)

/-- Continuation of `acquireDeviceInfo` after its `await requestDeviceInfo`
(core.ts lines 116-127): a rejected promise propagates without touching the
cache; a resolved value — device info or the `Error` object a waiter was
resolved with — is stored in `deviceInfoMap`.  The returned flag records
whether the `unixTimestamp() > result.refreshTime` refresh branch would
fire; for an `Error` value `refreshTime` is `undefined` and the JS
comparison is false. -/
def acquireContinue (st : CoreState) (token : String)
    (r : Except String JVal) (nowTs : Nat) :
    CoreState × Except String JVal × Bool :=
  match r with
  | .error m => (st, .error m, false)
  | .ok v =>
    ({ st with deviceInfoMap := insertA st.deviceInfoMap token v }, .ok v,
      match v with
      | .dev d => decide (d.refreshTime < nowTs)
      | .jerr _ => false)

/-- Synchronous arrival of `n` callers, all seeing a cache miss (no entry
exists and none of them has settled yet); counts upstream registration
requests issued. -/
def enterN (st : CoreState) (token : String) : Nat → CoreState × Nat
  | 0 => (st, 0)
  | n + 1 =>
    ((enterN (requestDeviceInfoEnter st token).1 token n).1,
     (if (requestDeviceInfoEnter st token).2 then 1 else 0)
       + (enterN (requestDeviceInfoEnter st token).1 token n).2)

/-- The `n` queued waiters resume in turn, each resolved with the same
value `v`; collects their `acquireDeviceInfo` results and whether any
would re-request on the TTL check. -/
def continueN (st : CoreState) (token : String) (v : JVal) (nowTs : Nat) :
    Nat → CoreState × List (Except String JVal) × Bool
  | 0 => (st, [], false)
  | n + 1 =>
    ((continueN (acquireContinue st token (.ok v) nowTs).1 token v nowTs n).1,
     (acquireContinue st token (.ok v) nowTs).2.1
       :: (continueN (acquireContinue st token (.ok v) nowTs).1 token v nowTs n).2.1,
     (acquireContinue st token (.ok v) nowTs).2.2
       || (continueN (acquireContinue st token (.ok v) nowTs).1 token v nowTs n).2.2)

/-- `n ≥ 1` concurrent `acquireDeviceInfo` calls for the same token while no
cached entry exists, the upstream registration settling once with
`outcome` at time `ts`.  Returns (requests issued, per-caller results with
the initiator first, final state, whether any TTL re-request would fire). -/
def concurrentAcquire (n : Nat) (token uid : String)
    (outcome : Except String String) (ts : Nat) :
    Nat × List (Except String JVal) × CoreState × Bool :=
  let entered := enterN emptyCoreState token n
  let settled := requestDeviceInfoSettle entered.1 token uid outcome ts
  let init := acquireContinue settled.1 token settled.2.1 ts
  let waiters := continueN init.1 token settled.2.2 ts (n - 1)
  (entered.2, init.2.1 :: waiters.2.1, waiters.1, init.2.2 || waiters.2.2)

theorem enterN_inflight (token : String) :
    ∀ (n : Nat) (st : CoreState) (q : Nat),
      lookupA st.inflight token = some q → (enterN st token n).2 = 0 := by
  intro n
  induction n with
  | zero => intro st q _; rfl
  | succ m ih =>
    intro st q hq
    have he : requestDeviceInfoEnter st token
        = ({ st with inflight := insertA st.inflight token (q + 1) }, false) := by
      unfold requestDeviceInfoEnter
      rw [hq]
    have hl : lookupA (insertA st.inflight token (q + 1)) token = some (q + 1) :=
      lookupA_insertA _ _ _
    simp only [enterN, he]
    rw [ih _ _ hl]
    simp

theorem continueN_dev_results (token : String) (d : DeviceInfo) (nowTs : Nat) :
    ∀ (n : Nat) (st : CoreState),
      (continueN st token (.dev d) nowTs n).2.1 =
        List.replicate n (Except.ok (JVal.dev d)) := by
  intro n
  induction n with
  | zero => intro st; rfl
  | succ m ih =>
    intro st
    simp only [continueN, acquireContinue, List.replicate]
    rw [ih]

theorem continueN_dev_flag (token : String) (d : DeviceInfo) (nowTs : Nat)
    (hts : ¬ d.refreshTime < nowTs) :
    ∀ (n : Nat) (st : CoreState),
      (continueN st token (.dev d) nowTs n).2.2 = false := by
  intro n
  induction n with
  | zero => intro st; rfl
  | succ m ih =>
    intro st
    simp only [continueN, acquireContinue]
    rw [ih]
    simp [hts]

/-- C2: with no cached entry, N ≥ 1 concurrent `acquireDeviceInfo` calls for
one credential issue exactly one upstream device-registration request; when
it succeeds every caller resolves with the same device identity (built from
the returned device id, the generated user id and `now + 10800`), and no
caller triggers a further request on the TTL check. -/
theorem device_single_flight (n : Nat) (hn : 1 ≤ n)
    (token uid idStr : String) (ts : Nat) :
    (concurrentAcquire n token uid (.ok idStr) ts).1 = 1
    ∧ (concurrentAcquire n token uid (.ok idStr) ts).2.1 =
        List.replicate n
          (Except.ok (JVal.dev ⟨idStr, uid, ts + DEVICE_INFO_EXPIRES⟩))
    ∧ (concurrentAcquire n token uid (.ok idStr) ts).2.2.2 = false := by
  obtain ⟨m, rfl⟩ : ∃ m, n = m + 1 := ⟨n - 1, by omega⟩
  have hts : ¬ (ts + DEVICE_INFO_EXPIRES) < ts := by omega
  have henter : (enterN emptyCoreState token (m + 1)).2 = 1 := by
    have h0 : requestDeviceInfoEnter emptyCoreState token
        = (⟨[], [(token, 0)]⟩, true) := rfl
    have h1 : lookupA ([(token, 0)] : List (String × Nat)) token = some 0 := by
      simp [lookupA]
    simp only [enterN, h0]
    rw [enterN_inflight token m ⟨[], [(token, 0)]⟩ 0 h1]
    simp
  refine ⟨?_, ?_, ?_⟩
  · simpa only [concurrentAcquire] using henter
  · simp only [concurrentAcquire, requestDeviceInfoSettle, regValue,
      acquireContinue]
    rw [continueN_dev_results token ⟨idStr, uid, ts + DEVICE_INFO_EXPIRES⟩ ts]
    simp [List.replicate]
  · simp only [concurrentAcquire, requestDeviceInfoSettle, regValue,
      acquireContinue]
    rw [continueN_dev_flag token ⟨idStr, uid, ts + DEVICE_INFO_EXPIRES⟩ ts hts]
    simp [hts]

theorem device_single_flight_witness :
    1 ≤ 3
    ∧ ((concurrentAcquire 3 "tok" "uid" (.ok "dev1") 100).1 = 1
      ∧ (concurrentAcquire 3 "tok" "uid" (.ok "dev1") 100).2.1 =
          List.replicate 3
            (Except.ok (JVal.dev ⟨"dev1", "uid", 100 + DEVICE_INFO_EXPIRES⟩))
      ∧ (concurrentAcquire 3 "tok" "uid" (.ok "dev1") 100).2.2.2 = false) :=
  ⟨by decide, device_single_flight 3 (by decide) "tok" "uid" "dev1" 100⟩

/-- C3: with two concurrent callers and a failed registration, the code
resolves the queued waiter with the `Error` object itself (the waiter's
call succeeds with `JVal.jerr`), and the waiter's `acquireDeviceInfo` then
stores that error in the device-identity cache; only the initiator fails. -/
theorem device_error_poisons_cache :
    concurrentAcquire 2 "tok" "uid" (.error "boom") 100 =
      (1, [Except.error "boom", Except.ok (JVal.jerr "boom")],
        ⟨[("tok", JVal.jerr "boom")], []⟩, false) := rfl

/-! ## StreamTranscoder, offset-tracking variant (`src/unnamed/part_003`,
`createTransStream`, lines 612-793)

Per-stream mutable state `{content, toolCall, codeGenerating,
textChunkLength, codeTemp, lastExecutionOutput, textOffset}` threaded
through one step per upstream SSE event.  For a non-terminal event the
cumulative text is rebuilt by folding over `result.parts` and each part's
`content` values, and the newly arrived chunk is
`text.substring(content.length - textOffset, text.length)`. -/

structure TransState where
  content : Str
  toolCall : Bool
  codeGenerating : Bool
  textChunkLength : Nat
  codeTemp : Str
  lastExecutionOutput : Str
  textOffset : Nat
deriving DecidableEq, Repr

structure MetaItem where
  title : Str
  url : Str
deriving DecidableEq, Repr

structure MetaData where
  /-- `meta_data.metadata_list`; `none` when absent or not an array -/
  metadata_list : Option (List MetaItem)
deriving DecidableEq, Repr

structure ImageItem where
  image_url : Str
deriving DecidableEq, Repr

/-- One element of a part's `content` array: `{status, type, text, image,
code, content}`.  `image` is `none` unless `_.isArray(image)`, `econtent`
models the `content` field and is `none` unless `_.isString(content)`. -/
structure InnerValue where
  status : String
  type : String
  text : Str
  image : Option (List ImageItem)
  code : Str
  econtent : Option Str
deriving DecidableEq, Repr

/-- One element of `result.parts`: `{status, content, meta_data}`;
`content` is `none` unless `_.isArray(content)`. -/
structure EventPart where
  status : String
  content : Option (List InnerValue)
  meta_data : Option MetaData
deriving DecidableEq, Repr

/-- `/^(http|https):\/\//.test(u)` -/
def startsHttp (u : Str) : Bool :=
  "http://".toList.isPrefixOf u || "https://".toList.isPrefixOf u

/-- Lines 660-664: a value whose own status is `init` while a finished text
chunk is pending advances `textOffset` past that chunk plus a paragraph
break, resets `textChunkLength`, and prepends a newline. -/
def stepValuePre (st : TransState) (vstatus : String) : TransState × Str :=
  if vstatus = "init" ∧ 0 < st.textChunkLength then
    ({ st with textOffset := st.textOffset + st.textChunkLength + 1,
               textChunkLength := 0 }, ['\n'])
  else (st, [])

/-- Lines 665-734, the per-value type dispatch.  `pStatus` is the enclosing
part's `status` (the `quote_result` and `image` branches test it), while
`v.status` is the value's own status. -/
def stepValueMain (pStatus : String) (meta : Option MetaData)
    (st : TransState) (v : InnerValue) : TransState × Str :=
  if v.type = "text" then
    (if v.status = "finish" then
       { (if st.toolCall then
            { st with textOffset := st.textOffset + 1, toolCall := false }
          else st) with textChunkLength := v.text.length }
     else
       (if st.toolCall then
          { st with textOffset := st.textOffset + 1, toolCall := false }
        else st),
     (if st.toolCall then ['\n'] else []) ++ v.text)
  else if v.type = "quote_result" ∧ pStatus = "finish" then
    match meta with
    | some md =>
      match md.metadata_list with
      | some items =>
        ({ st with
            textOffset := st.textOffset
              + (items.foldl
                  (fun acc it =>
                    acc ++ "检索 ".toList ++ it.title ++ "(".toList
                      ++ it.url ++ ") ...".toList) [] ++ ['\n']).length,
            toolCall := true },
         items.foldl
            (fun acc it =>
              acc ++ "检索 ".toList ++ it.title ++ "(".toList
                ++ it.url ++ ") ...".toList) [] ++ ['\n'])
      | none => (st, [])
    | none => (st, [])
  else if v.type = "image" ∧ pStatus = "finish" then
    match v.image with
    | some imgs =>
      ({ st with
          textOffset := st.textOffset
            + (imgs.foldl
                (fun acc im =>
                  acc ++ (if startsHttp im.image_url then
                    "![图像](".toList ++ im.image_url ++ ")".toList
                  else [])) [] ++ ['\n']).length,
          toolCall := true },
       imgs.foldl
          (fun acc im =>
            acc ++ (if startsHttp im.image_url then
              "![图像](".toList ++ im.image_url ++ ")".toList
            else [])) [] ++ ['\n'])
    | none => (st, [])
  else if v.type = "code" ∧ v.status = "init" then
    ({ st with
        codeGenerating := true,
        codeTemp := st.codeTemp
          ++ jsSubstring v.code (st.codeTemp.length : Int) (v.code.length : Int),
        textOffset := st.textOffset
          + (if st.codeGenerating then [] else "```python\n".toList).length
          + (jsSubstring v.code (st.codeTemp.length : Int)
              (v.code.length : Int)).length },
     (if st.codeGenerating then [] else "```python\n".toList)
       ++ jsSubstring v.code (st.codeTemp.length : Int) (v.code.length : Int))
  else if v.type = "code" ∧ v.status = "finish" ∧ st.codeGenerating then
    ({ st with
        codeGenerating := false,
        codeTemp := [],
        textOffset := st.textOffset + ("\n```\n".toList).length },
     "\n```\n".toList)
  else if v.type = "execution_output" ∧ v.status = "done" then
    match v.econtent with
    | some c =>
      if st.lastExecutionOutput ≠ c then
        ({ st with
            lastExecutionOutput := c,
            textOffset := st.textOffset + c.length + 1 }, c ++ ['\n'])
      else (st, [])
    | none => (st, [])
  else (st, [])

/-- One value of one part: the `init`/pending-text preamble followed by the
type dispatch, text accumulated in arrival order. -/
def stepValue (pStatus : String) (meta : Option MetaData)
    (acc : TransState × Str) (v : InnerValue) : TransState × Str :=
  ((stepValueMain pStatus meta (stepValuePre acc.1 v.status).1 v).1,
   acc.2 ++ (stepValuePre acc.1 v.status).2
     ++ (stepValueMain pStatus meta (stepValuePre acc.1 v.status).1 v).2)

/-- Lines 648-737: fold the event's parts (skipping parts whose `content`
is not an array), producing the rebuilt cumulative text. -/
def processParts (st : TransState) (parts : List EventPart) :
    TransState × Str :=
  parts.foldl
    (fun acc p =>
      match p.content with
      | none => acc
      | some values => values.foldl (stepValue p.status p.meta_data) acc)
    (st, [])

inductive StreamChunk where
  | delta (convId : Str) (content : Str)
  | stop (convId : Str) (text : Option Str)
  | done
deriving DecidableEq, Repr

structure UpEvent where
  status : String
  parts : List EventPart
  conversation_id : Str
  /-- `last_error.intervene_text` when present and non-empty -/
  intervene_text : Option Str
deriving DecidableEq, Repr

/-- One parsed SSE event through `createTransStream` (part_003 lines
640-781).  A terminal event (`finish` or `intervene`) emits the stop chunk
(carrying the intervention text if any), the `[DONE]` sentinel and resets
`content`; any other event rebuilds the cumulative text, computes the new
chunk as `text.substring(content.length - textOffset, text.length)` and
emits it only when non-empty. -/
def transStep (st : TransState) (ev : UpEvent) : TransState × List StreamChunk :=
  if ev.status = "finish" ∨ ev.status = "intervene" then
    ({ st with content := [] },
     [.stop ev.conversation_id
        (if ev.status = "intervene" then ev.intervene_text else none),
      .done])
  else
    if jsSubstring (processParts st ev.parts).2
        (((processParts st ev.parts).1.content.length : Int)
          - ((processParts st ev.parts).1.textOffset : Int))
        ((processParts st ev.parts).2.length : Int) = [] then
      ((processParts st ev.parts).1, [])
    else
      ({ (processParts st ev.parts).1 with
          content := (processParts st ev.parts).1.content
            ++ jsSubstring (processParts st ev.parts).2
                (((processParts st ev.parts).1.content.length : Int)
                  - ((processParts st ev.parts).1.textOffset : Int))
                ((processParts st ev.parts).2.length : Int) },
       [.delta ev.conversation_id
          (jsSubstring (processParts st ev.parts).2
            (((processParts st ev.parts).1.content.length : Int)
              - ((processParts st ev.parts).1.textOffset : Int))
            ((processParts st ev.parts).2.length : Int))])

theorem stepValuePre_content (st : TransState) (s : String) :
    (stepValuePre st s).1.content = st.content := by
  unfold stepValuePre
  split <;> rfl

theorem stepValueMain_content (p : String) (m : Option MetaData)
    (st : TransState) (v : InnerValue) :
    (stepValueMain p m st v).1.content = st.content := by
  unfold stepValueMain
  repeat' split
  all_goals rfl

theorem stepValue_content (p : String) (m : Option MetaData)
    (acc : TransState × Str) (v : InnerValue) :
    (stepValue p m acc v).1.content = acc.1.content := by
  unfold stepValue
  rw [stepValueMain_content, stepValuePre_content]

theorem foldValues_content (p : String) (m : Option MetaData)
    (vs : List InnerValue) :
    ∀ acc : TransState × Str,
      (vs.foldl (stepValue p m) acc).1.content = acc.1.content := by
  induction vs with
  | nil => intro acc; rfl
  | cons v r ih =>
    intro acc
    rw [List.foldl_cons, ih, stepValue_content]

/-- The parts fold never touches `content`: the chunk at part_003 line 738
is measured against the content accepted before this event. -/
theorem processParts_content (st : TransState) (parts : List EventPart) :
    (processParts st parts).1.content = st.content := by
  unfold processParts
  suffices h : ∀ (ps : List EventPart) (acc : TransState × Str),
      (ps.foldl
        (fun acc p =>
          match p.content with
          | none => acc
          | some values => values.foldl (stepValue p.status p.meta_data) acc)
        acc).1.content = acc.1.content by
    exact h parts (st, [])
  intro ps
  induction ps with
  | nil => intro acc; rfl
  | cons p r ih =>
    intro acc
    rw [List.foldl_cons, ih]
    cases hp : p.content with
    | none => rfl
    | some values => exact foldValues_content _ _ _ _

/-- C1: for every transcoder state and non-terminal cumulative event, the
emitted chunk is `text.substring(content.length - textOffset, text.length)`,
i.e. the suffix of the rebuilt cumulative text from the clamped start index
— a total computation that cannot produce a negative-length read; `content`
itself is unchanged by the parts fold; and whenever
`content.length - textOffset ≥ text.length` (upstream sent a cumulative
string no longer than the text already accepted) the chunk is empty and the
step emits nothing at all. -/
theorem transcoder_chunk_total (st st' : TransState) (ev : UpEvent)
    (text : Str)
    (hf : ev.status ≠ "finish") (hi : ev.status ≠ "intervene")
    (hp : processParts st ev.parts = (st', text)) :
    jsSubstring text
        ((st'.content.length : Int) - (st'.textOffset : Int))
        (text.length : Int)
      = text.drop
          (jsClamp ((st'.content.length : Int) - (st'.textOffset : Int))
            text.length)
    ∧ st'.content = st.content
    ∧ (transStep st ev).2 =
        (if jsSubstring text
            ((st'.content.length : Int) - (st'.textOffset : Int))
            (text.length : Int) = [] then ([] : List StreamChunk)
         else
           [.delta ev.conversation_id
              (jsSubstring text
                ((st'.content.length : Int) - (st'.textOffset : Int))
                (text.length : Int))])
    ∧ ((text.length : Int) ≤ (st'.content.length : Int) - (st'.textOffset : Int) →
        jsSubstring text
            ((st'.content.length : Int) - (st'.textOffset : Int))
            (text.length : Int) = []
          ∧ (transStep st ev).2 = []) := by
  have hsub := jsSubstring_toEnd text
    ((st'.content.length : Int) - (st'.textOffset : Int))
  have hcontent : st'.content = st.content := by
    have := processParts_content st ev.parts
    rw [hp] at this
    exact this
  have hcond : ¬ (ev.status = "finish" ∨ ev.status = "intervene") := by
    intro h
    rcases h with h | h
    · exact hf h
    · exact hi h
  have hstep : (transStep st ev).2 =
      (if jsSubstring text
          ((st'.content.length : Int) - (st'.textOffset : Int))
          (text.length : Int) = [] then ([] : List StreamChunk)
       else
         [.delta ev.conversation_id
            (jsSubstring text
              ((st'.content.length : Int) - (st'.textOffset : Int))
              (text.length : Int))]) := by
    unfold transStep
    rw [if_neg hcond, hp]
    by_cases hc : jsSubstring text
        ((st'.content.length : Int) - (st'.textOffset : Int))
        (text.length : Int) = []
    · simp [hc]
    · simp [hc]
  refine ⟨hsub, hcontent, hstep, ?_⟩
  intro hge
  have hclamp : jsClamp ((st'.content.length : Int) - (st'.textOffset : Int))
      text.length = text.length := jsClamp_of_ge _ _ hge
  have hempty : jsSubstring text
      ((st'.content.length : Int) - (st'.textOffset : Int))
      (text.length : Int) = [] := by
    rw [hsub, hclamp, List.drop_length]
  exact ⟨hempty, by rw [hstep, if_pos hempty]⟩

def sampleTransState : TransState :=
  ⟨"abcdef".toList, false, false, 0, [], [], 2⟩

def sampleUpEvent : UpEvent :=
  ⟨"run",
   [⟨"run", some [⟨"generate", "text", "ab".toList, none, [], none⟩], none⟩],
   "51".toList, none⟩

theorem transcoder_chunk_total_witness :
    (sampleUpEvent.status ≠ "finish"
      ∧ sampleUpEvent.status ≠ "intervene"
      ∧ processParts sampleTransState sampleUpEvent.parts
          = (sampleTransState, "ab".toList))
    ∧ (jsSubstring "ab".toList
          ((sampleTransState.content.length : Int)
            - (sampleTransState.textOffset : Int))
          (("ab".toList : Str).length : Int)
        = ("ab".toList : Str).drop
            (jsClamp ((sampleTransState.content.length : Int)
              - (sampleTransState.textOffset : Int)) ("ab".toList : Str).length)
      ∧ sampleTransState.content = sampleTransState.content
      ∧ (transStep sampleTransState sampleUpEvent).2 =
          (if jsSubstring "ab".toList
              ((sampleTransState.content.length : Int)
                - (sampleTransState.textOffset : Int))
              (("ab".toList : Str).length : Int) = []
           then ([] : List StreamChunk)
           else
             [.delta sampleUpEvent.conversation_id
                (jsSubstring "ab".toList
                  ((sampleTransState.content.length : Int)
                    - (sampleTransState.textOffset : Int))
                  (("ab".toList : Str).length : Int))])
      ∧ ((("ab".toList : Str).length : Int)
            ≤ (sampleTransState.content.length : Int)
              - (sampleTransState.textOffset : Int) →
          jsSubstring "ab".toList
              ((sampleTransState.content.length : Int)
                - (sampleTransState.textOffset : Int))
              (("ab".toList : Str).length : Int) = []
            ∧ (transStep sampleTransState sampleUpEvent).2 = [])) :=
  ⟨⟨by decide, by decide, by decide⟩,
   transcoder_chunk_total sampleTransState sampleTransState sampleUpEvent
     "ab".toList (by decide) (by decide) (by decide)⟩

/-! ## StreamTranscoder, marker-aware variant
(`src/api/controllers/chat.ts`, `createTransStream` lines 472-574 and
`receiveStream` lines 394-461)

State is `{convId, content}`; each `message_result` event carries the
cumulative `content` text, possibly containing the literal `�` marker at an
unresolved multi-byte boundary.  The new chunk is
`text.substring(exceptCharIndex != -1 ? min(content.length, exceptCharIndex)
: content.length, exceptCharIndex == -1 ? text.length : exceptCharIndex)`. -/

/-- The literal `�` marker (U+FFFD) flagging an in-progress character. -/
def replChar : Char := '�'

structure ChatState where
  convId : Str
  content : Str
deriving DecidableEq, Repr

/-- Fields of one `messageResult`: `{chatID, isEnd, content}`;
`isEnd` is `none` when the field is absent. -/
structure ChatEvent where
  chatID : Str
  isEnd : Option Int
  text : Str
deriving DecidableEq, Repr

inductive ChatOut where
  | chunk (id : Str) (delta : Str) (stop : Bool)
  | done
deriving DecidableEq, Repr

/-- The chunk computed at chat.ts lines 512-518. -/
def chatChunk (st : ChatState) (ev : ChatEvent) : Str :=
  match firstIdx replChar ev.text with
  | some e =>
    jsSubstring ev.text ((min st.content.length e : Nat) : Int) (e : Int)
  | none =>
    jsSubstring ev.text (st.content.length : Int) (ev.text.length : Int)

/-- One `message_result` event through chat.ts `createTransStream`
(lines 508-537): events that are neither final nor carry text are skipped;
otherwise the conversation id is latched, the chunk is computed and
appended to `content`, one delta chunk is always written (with
`finish_reason: "stop"` iff `isEnd === 0`), and on `isEnd === 0` the
`[DONE]` sentinel ends the stream. -/
def chatTransStep (st : ChatState) (ev : ChatEvent) :
    ChatState × List ChatOut :=
  if ev.isEnd ≠ some 0 ∧ ev.text = [] then (st, [])
  else
    ({ convId := if st.convId = [] then ev.chatID else st.convId,
       content := st.content ++ chatChunk st ev },
     [.chunk (if st.convId = [] then ev.chatID else st.convId)
        (chatChunk st ev) (ev.isEnd = some 0)]
       ++ (if ev.isEnd = some 0 then [.done] else []))

theorem chatChunk_marker (st : ChatState) (ev : ChatEvent) (e : Nat)
    (hm : firstIdx replChar ev.text = some e) :
    chatChunk st ev = (ev.text.take e).drop (min st.content.length e) := by
  have he : e < ev.text.length := firstIdx_lt_length _ _ _ hm
  unfold chatChunk
  rw [hm]
  dsimp only
  unfold jsSubstring
  have h1 : jsClamp ((min st.content.length e : Nat) : Int) ev.text.length
      = min st.content.length e := by
    unfold jsClamp
    have : min (max ((min st.content.length e : Nat) : Int) 0)
        (ev.text.length : Int) = ((min st.content.length e : Nat) : Int) := by
      omega
    rw [this]
    exact Int.toNat_natCast _
  have h2 : jsClamp (e : Int) ev.text.length = e := by
    unfold jsClamp
    have : min (max (e : Int) 0) (ev.text.length : Int) = (e : Int) := by
      omega
    rw [this]
    exact Int.toNat_natCast _
  rw [h1, h2]
  have hle : min st.content.length e ≤ e := min_le_right _ _
  rw [max_eq_right hle, min_eq_left hle]

/-- C7: when the cumulative text contains the `�` marker at first index `e`,
the emitted chunk is exactly the slice of the text strictly before the
marker and beyond the already-accepted content; the marker never appears in
the chunk, the accepted content grows only by that safe slice, and the
output is that single delta chunk.  When a later event arrives without the
marker, the chunk is everything beyond the accepted content, releasing the
withheld text. -/
theorem chat_marker_withheld (st : ChatState) (ev : ChatEvent)
    (hguard : ¬(ev.isEnd ≠ some 0 ∧ ev.text = [])) :
    (∀ e : Nat, firstIdx replChar ev.text = some e →
      chatChunk st ev = (ev.text.take e).drop (min st.content.length e)
      ∧ replChar ∉ chatChunk st ev
      ∧ (chatTransStep st ev).1.content = st.content ++ chatChunk st ev
      ∧ (chatTransStep st ev).2 =
          [.chunk (if st.convId = [] then ev.chatID else st.convId)
             (chatChunk st ev) (ev.isEnd = some 0)]
            ++ (if ev.isEnd = some 0 then [.done] else []))
    ∧ (firstIdx replChar ev.text = none →
      chatChunk st ev
        = ev.text.drop (jsClamp (st.content.length : Int) ev.text.length)) := by
  constructor
  · intro e hm
    have hch := chatChunk_marker st ev e hm
    refine ⟨hch, ?_, ?_, ?_⟩
    · intro hmem
      have hmem' : replChar ∈ ev.text.take e := by
        rw [hch] at hmem
        exact List.mem_of_mem_drop hmem
      exact firstIdx_not_mem_take replChar ev.text e hm hmem'
    · unfold chatTransStep
      rw [if_neg hguard]
    · unfold chatTransStep
      rw [if_neg hguard]
  · intro hn
    unfold chatChunk
    rw [hn]
    exact jsSubstring_toEnd ev.text (st.content.length : Int)

def sampleChatState : ChatState := ⟨[], "He".toList⟩

def sampleChatEvent : ChatEvent :=
  ⟨"77".toList, some 1, "Hello�".toList⟩

theorem chat_marker_withheld_witness :
    (¬(sampleChatEvent.isEnd ≠ some 0 ∧ sampleChatEvent.text = []))
    ∧ ((∀ e : Nat, firstIdx replChar sampleChatEvent.text = some e →
        chatChunk sampleChatState sampleChatEvent
            = (sampleChatEvent.text.take e).drop
                (min sampleChatState.content.length e)
        ∧ replChar ∉ chatChunk sampleChatState sampleChatEvent
        ∧ (chatTransStep sampleChatState sampleChatEvent).1.content
            = sampleChatState.content
              ++ chatChunk sampleChatState sampleChatEvent
        ∧ (chatTransStep sampleChatState sampleChatEvent).2 =
            [.chunk
               (if sampleChatState.convId = [] then sampleChatEvent.chatID
                else sampleChatState.convId)
               (chatChunk sampleChatState sampleChatEvent)
               (sampleChatEvent.isEnd = some 0)]
              ++ (if sampleChatEvent.isEnd = some 0 then [.done] else []))
      ∧ (firstIdx replChar sampleChatEvent.text = none →
        chatChunk sampleChatState sampleChatEvent
          = sampleChatEvent.text.drop
              (jsClamp (sampleChatState.content.length : Int)
                sampleChatEvent.text.length))) :=
  ⟨by decide,
   chat_marker_withheld sampleChatState sampleChatEvent (by decide)⟩

/-! ## RetryingCompletionOrchestrator (`src/api/controllers/chat.ts`,
`createCompletion` / `createCompletionStream`, with
`checkFileUrl` / `uploadFile` from `src/api/controllers/core.ts`)

Each attempt runs: extract reference file URLs from the latest message →
validate and upload each → acquire device info → open the HTTP/2 stream →
transcode; on success the session is closed and an asynchronous
best-effort `removeConversation` is scheduled.  The surrounding `.catch`
closes any open session and, while `retryCount < MAX_RETRY_COUNT`, sleeps
`RETRY_DELAY` ms and re-runs the whole call; otherwise the error is
re-thrown.  Network outcomes are supplied by a per-attempt oracle
(`AttemptEnv`). -/

def MAX_RETRY_COUNT : Nat := 3

/-- Milliseconds. -/
def RETRY_DELAY : Nat := 5000

/-- `FILE_MAX_SIZE = 100 * 1024 * 1024` (core.ts line 52). -/
def FILE_MAX_SIZE : Nat := 100 * 1024 * 1024

inductive APIError where
  /-- `EX.API_FILE_URL_INVALID`, thrown by `checkFileUrl` on HEAD ≥ 400 -/
  | fileUrlInvalid (url : Str) (status : Nat)
  /-- `EX.API_FILE_EXECEEDS_SIZE`, thrown by `checkFileUrl` on oversize -/
  | fileExceedsSize (url : Str)
  /-- any other upstream/transport/transcode failure -/
  | upstream (msg : Str)
deriving DecidableEq, Repr

/-- Parsed outcome of the `HEAD` pre-check: HTTP status and the parsed
`content-length` header when present. -/
structure HeadResponse where
  status : Nat
  contentLength : Option Nat
deriving DecidableEq, Repr

/-- `checkFileUrl` (core.ts lines 134-154): BASE64 data URLs pass; a HEAD
status ≥ 400 raises `API_FILE_URL_INVALID`; a declared `content-length`
above `FILE_MAX_SIZE` raises `API_FILE_EXECEEDS_SIZE`. -/
def checkFileUrl (isB64 : Bool) (head : HeadResponse) (url : Str) :
    Except APIError Unit :=
  if isB64 then .ok ()
  else if head.status ≥ 400 then .error (.fileUrlInvalid url head.status)
  else
    match head.contentLength with
    | some n => if n > FILE_MAX_SIZE then .error (.fileExceedsSize url) else .ok ()
    | none => .ok ()

/-- An upstream file handle, `{fileType, filename, fileId}`. -/
structure FileRef where
  fileType : Nat
  filename : Str
  fileId : Str
deriving DecidableEq, Repr

/-- One typed content part; the `Option` fields are `some url` only when
the nested `file_url` / `image_url` object exists and its `url` field is a
string. -/
structure ContentPart where
  type : Str
  fileUrl : Option Str
  imageUrl : Option Str
deriving DecidableEq, Repr

/-- A message's `content`: either a plain string or an array of parts. -/
inductive MsgContent where
  | txt (s : Str)
  | parts (l : List ContentPart)
deriving DecidableEq, Repr

structure ChatMessage where
  role : Str
  content : MsgContent
deriving DecidableEq, Repr

/-- `extractRefFileUrls` (chat.ts lines 270-299): URLs of `file` /
`image_url` parts of the LAST message only, in order. -/
def extractRefFileUrls (messages : List ChatMessage) : List Str :=
  match messages.getLast? with
  | none => []
  | some last =>
    match last.content with
    | .txt _ => []
    | .parts l =>
      l.foldl
        (fun urls v =>
          if v.type ≠ "file".toList ∧ v.type ≠ "image_url".toList then urls
          else if v.type = "file".toList then
            match v.fileUrl with
            | some u => urls ++ [u]
            | none => urls
          else
            match v.imageUrl with
            | some u => urls ++ [u]
            | none => urls)
        []

/-- `if (!/[0-9]{18}/.test(refConvId)) refConvId = "";`
(chat.ts lines 67, 152): the id survives iff it contains a run of 18
consecutive digits. -/
def normalizeRefConvId (r : Str) : Str :=
  if hasDigitRun 18 r then r else []

/-- The completion object, reduced to the conversation id used for
cleanup. -/
structure Answer where
  id : Str
deriving DecidableEq, Repr

/-- Per-attempt network oracle: outcomes of the HEAD pre-check per URL, of
the post-validation upload steps per URL, of `acquireDeviceInfo`, of
`requestStream` and of the transcoding phase, plus whether the scheduled
`removeConversation` would fail. -/
structure AttemptEnv where
  heads : Str → Bool × HeadResponse
  upload : Str → Except APIError FileRef
  device : Except APIError DeviceInfo
  openStream : Except APIError Unit
  transcode : Except APIError Answer
  removeFails : Bool

/-- `uploadFile` (core.ts lines 162-259): the URL pre-check followed by the
download / OSS upload / policy callback, the latter supplied by the
oracle. -/
def uploadFileM (heads : Str → Bool × HeadResponse)
    (upload : Str → Except APIError FileRef) (url : Str) :
    Except APIError FileRef :=
  match checkFileUrl (heads url).1 (heads url).2 url with
  | .error e => .error e
  | .ok _ => upload url

/-- `Promise.all` over the uploads: the first rejection in list order, if
any. -/
def firstUploadError (heads : Str → Bool × HeadResponse)
    (upload : Str → Except APIError FileRef) : List Str → Option APIError
  | [] => none
  | u :: rest =>
    match uploadFileM heads upload u with
    | .error e => some e
    | .ok _ => firstUploadError heads upload rest

inductive CallAction where
  | openedStream
  | closedSession
  | slept (ms : Nat)
  | removeConv (convId : Str)
  | logRemoveErr
deriving DecidableEq, Repr

/-- The success-path cleanup (chat.ts lines 97-100 and 179-182):
`removeConversation(answer.id, token).catch(err => !refConvId &&
console.error(err))` — the deletion is always scheduled; its rejection is
always swallowed and is logged only when no reference conversation id was
supplied. -/
def scheduleRemove (removeFails : Bool) (refConvId convId : Str) :
    List CallAction :=
  [.removeConv convId]
    ++ (if removeFails ∧ refConvId = [] then [.logRemoveErr] else [])

/-- One attempt of `createCompletion` / `createCompletionStream`
(chat.ts lines 55-102 / 140-183): upload-reference phase, device
acquisition, stream open, transcode, then session close and cleanup
scheduling.  Failures carry whether an HTTP/2 session was open at the time
(the `catch` only closes `session` when it was assigned). -/
def attemptOnce (env : AttemptEnv) (messages : List ChatMessage)
    (refConvId : Str) : List CallAction × Except (Bool × APIError) Answer :=
  match firstUploadError env.heads env.upload (extractRefFileUrls messages) with
  | some e => ([], .error (false, e))
  | none =>
    match env.device with
    | .error e => ([], .error (false, e))
    | .ok _ =>
      match env.openStream with
      | .error e => ([], .error (false, e))
      | .ok _ =>
        match env.transcode with
        | .error e => ([.openedStream], .error (true, e))
        | .ok ans =>
          ([.openedStream, .closedSession]
            ++ scheduleRemove env.removeFails (normalizeRefConvId refConvId)
                ans.id,
           .ok ans)

/-- The retry loop around the attempts (the `.catch` at chat.ts lines
103-121 / 184-202): on failure close any open session; while
`retryCount < MAX_RETRY_COUNT` sleep `RETRY_DELAY` ms and re-run the whole
call with `retryCount + 1`; otherwise surface the last error.  `fuel` only
bounds the recursion; every reachable call keeps
`MAX_RETRY_COUNT - retryCount ≤ fuel`, so the fuel pattern never changes
the computed answer. -/
def runAttempts (envs : Nat → AttemptEnv) (messages : List ChatMessage)
    (refConvId : Str) :
    Nat → Nat → List CallAction × Except APIError Answer
  | 0, retryCount =>
    (match attemptOnce (envs retryCount) messages refConvId with
     | (tr, .ok ans) => (tr, .ok ans)
     | (tr, .error be) =>
       (tr ++ (if be.1 then [.closedSession] else []), .error be.2))
  | fuel + 1, retryCount =>
    (match attemptOnce (envs retryCount) messages refConvId with
     | (tr, .ok ans) => (tr, .ok ans)
     | (tr, .error be) =>
       if retryCount < MAX_RETRY_COUNT then
         ((tr ++ (if be.1 then [.closedSession] else [])
             ++ [.slept RETRY_DELAY]
             ++ (runAttempts envs messages refConvId fuel (retryCount + 1)).1),
          (runAttempts envs messages refConvId fuel (retryCount + 1)).2)
       else (tr ++ (if be.1 then [.closedSession] else []), .error be.2))

/-- A whole `createCompletion` / `createCompletionStream` call: attempt 0
with a fresh retry budget.  The fuel equals the remaining budget, so the
fuel-exhausted base case is never reached before `retryCount` hits
`MAX_RETRY_COUNT` and mirrors the budget-exhausted branch anyway. -/
def createCompletionM (envs : Nat → AttemptEnv)
    (messages : List ChatMessage) (refConvId : Str) :
    List CallAction × Except APIError Answer :=
  runAttempts envs messages refConvId MAX_RETRY_COUNT 0

theorem runAttempts_zero (envs : Nat → AttemptEnv)
    (messages : List ChatMessage) (refConvId : Str) (rc : Nat)
    (t : List CallAction) (bb : Bool) (ee : APIError)
    (h : attemptOnce (envs rc) messages refConvId = (t, .error (bb, ee))) :
    runAttempts envs messages refConvId 0 rc =
      (t ++ (if bb then [CallAction.closedSession] else []), .error ee) := by
  simp only [runAttempts, h]

theorem runAttempts_succ_fail (envs : Nat → AttemptEnv)
    (messages : List ChatMessage) (refConvId : Str) (rc fuel : Nat)
    (t : List CallAction) (bb : Bool) (ee : APIError)
    (h : attemptOnce (envs rc) messages refConvId = (t, .error (bb, ee)))
    (hlt : rc < MAX_RETRY_COUNT) :
    runAttempts envs messages refConvId (fuel + 1) rc =
      (t ++ (if bb then [CallAction.closedSession] else [])
         ++ [CallAction.slept RETRY_DELAY]
         ++ (runAttempts envs messages refConvId fuel (rc + 1)).1,
       (runAttempts envs messages refConvId fuel (rc + 1)).2) := by
  simp only [runAttempts, h, if_pos hlt]

theorem runAttempts_ok (envs : Nat → AttemptEnv)
    (messages : List ChatMessage) (refConvId : Str) (rc fuel : Nat)
    (t : List CallAction) (ans : Answer)
    (h : attemptOnce (envs rc) messages refConvId = (t, .ok ans)) :
    runAttempts envs messages refConvId fuel rc = (t, .ok ans) := by
  cases fuel with
  | zero => simp only [runAttempts, h]
  | succ f => simp only [runAttempts, h]

/-- C4: when every attempt of a chat-completion call fails, the call makes
the initial attempt plus exactly `MAX_RETRY_COUNT = 3` retries; after each
failed attempt it closes the session exactly when one was open, sleeps
`RETRY_DELAY = 5000` ms, and re-runs the whole call; after the last retry
it performs no further attempt and surfaces the last error (attempt 3's). -/
theorem completion_retry_budget (envs : Nat → AttemptEnv)
    (messages : List ChatMessage) (refConvId : Str)
    (b : Nat → Bool) (e : Nat → APIError)
    (hfail : ∀ k, (attemptOnce (envs k) messages refConvId).2
      = Except.error (b k, e k)) :
    createCompletionM envs messages refConvId =
      ((attemptOnce (envs 0) messages refConvId).1
         ++ (if b 0 then [CallAction.closedSession] else [])
         ++ [CallAction.slept RETRY_DELAY]
         ++ ((attemptOnce (envs 1) messages refConvId).1
           ++ (if b 1 then [CallAction.closedSession] else [])
           ++ [CallAction.slept RETRY_DELAY]
           ++ ((attemptOnce (envs 2) messages refConvId).1
             ++ (if b 2 then [CallAction.closedSession] else [])
             ++ [CallAction.slept RETRY_DELAY]
             ++ ((attemptOnce (envs 3) messages refConvId).1
               ++ (if b 3 then [CallAction.closedSession] else [])))),
       .error (e 3)) := by
  have hk : ∀ k, attemptOnce (envs k) messages refConvId
      = ((attemptOnce (envs k) messages refConvId).1,
         Except.error (b k, e k)) := by
    intro k
    rw [← hfail k]
  have hA3 := runAttempts_zero envs messages refConvId 3 _ _ _ (hk 3)
  have hA2 : runAttempts envs messages refConvId 1 2 =
      ((attemptOnce (envs 2) messages refConvId).1
         ++ (if b 2 then [CallAction.closedSession] else [])
         ++ [CallAction.slept RETRY_DELAY]
         ++ ((attemptOnce (envs 3) messages refConvId).1
           ++ (if b 3 then [CallAction.closedSession] else [])),
       .error (e 3)) := by
    conv_lhs => rw [show (1 : Nat) = 0 + 1 from rfl]
    rw [runAttempts_succ_fail envs messages refConvId 2 0 _ _ _ (hk 2)
      (by decide)]
    rw [hA3]
  have hA1 : runAttempts envs messages refConvId 2 1 =
      ((attemptOnce (envs 1) messages refConvId).1
         ++ (if b 1 then [CallAction.closedSession] else [])
         ++ [CallAction.slept RETRY_DELAY]
         ++ ((attemptOnce (envs 2) messages refConvId).1
           ++ (if b 2 then [CallAction.closedSession] else [])
           ++ [CallAction.slept RETRY_DELAY]
           ++ ((attemptOnce (envs 3) messages refConvId).1
             ++ (if b 3 then [CallAction.closedSession] else []))),
       .error (e 3)) := by
    conv_lhs => rw [show (2 : Nat) = 1 + 1 from rfl]
    rw [runAttempts_succ_fail envs messages refConvId 1 1 _ _ _ (hk 1)
      (by decide)]
    rw [hA2]
  show runAttempts envs messages refConvId MAX_RETRY_COUNT 0 = _
  conv_lhs => rw [show MAX_RETRY_COUNT = 2 + 1 from rfl]
  rw [runAttempts_succ_fail envs messages refConvId 0 2 _ _ _ (hk 0)
    (by decide)]
  rw [hA1]

/-- A single plain-text user message, carrying no attachments. -/
def sampleMessages : List ChatMessage :=
  [⟨"user".toList, .txt "hi".toList⟩]

/-- An attempt whose stream opens but whose transcoding phase fails. -/
def sampleFailEnv : AttemptEnv where
  heads := fun _ => (false, ⟨200, none⟩)
  upload := fun _ => .ok ⟨2, [], []⟩
  device := .ok ⟨"dev", "uid", 0⟩
  openStream := .ok ()
  transcode := .error (.upstream "boom".toList)
  removeFails := false

def sampleEnvs : Nat → AttemptEnv := fun _ => sampleFailEnv

def sampleB : Nat → Bool := fun _ => true

def sampleE : Nat → APIError := fun _ => .upstream "boom".toList

theorem sampleAttemptFails :
    (attemptOnce sampleFailEnv sampleMessages []).2
      = Except.error (true, APIError.upstream "boom".toList) := by
  decide

theorem completion_retry_budget_witness :
    (∀ k, (attemptOnce (sampleEnvs k) sampleMessages []).2
      = Except.error (sampleB k, sampleE k))
    ∧ createCompletionM sampleEnvs sampleMessages [] =
      ((attemptOnce (sampleEnvs 0) sampleMessages []).1
         ++ (if sampleB 0 then [CallAction.closedSession] else [])
         ++ [CallAction.slept RETRY_DELAY]
         ++ ((attemptOnce (sampleEnvs 1) sampleMessages []).1
           ++ (if sampleB 1 then [CallAction.closedSession] else [])
           ++ [CallAction.slept RETRY_DELAY]
           ++ ((attemptOnce (sampleEnvs 2) sampleMessages []).1
             ++ (if sampleB 2 then [CallAction.closedSession] else [])
             ++ [CallAction.slept RETRY_DELAY]
             ++ ((attemptOnce (sampleEnvs 3) sampleMessages []).1
               ++ (if sampleB 3 then [CallAction.closedSession] else [])))),
       .error (sampleE 3)) :=
  ⟨fun _ => sampleAttemptFails,
   completion_retry_budget sampleEnvs sampleMessages [] sampleB sampleE
     (fun _ => sampleAttemptFails)⟩

/-- C5 (amended): after every successful chat turn the asynchronous
deletion of the upstream conversation is always scheduled — also when a
reference conversation id was supplied; the deletion's failure never
affects the call's result (it is swallowed by the `.catch`), and it is
logged exactly when the removal fails and no reference conversation id was
supplied. -/
theorem cleanup_always_scheduled (env : AttemptEnv)
    (messages : List ChatMessage) (refConvId : Str) (ans : Answer)
    (hok : (attemptOnce env messages refConvId).2 = .ok ans) :
    CallAction.removeConv ans.id ∈ (attemptOnce env messages refConvId).1
    ∧ (CallAction.logRemoveErr ∈ (attemptOnce env messages refConvId).1
        ↔ env.removeFails = true ∧ normalizeRefConvId refConvId = [])
    ∧ ∀ bflag : Bool,
        (attemptOnce { env with removeFails := bflag } messages
          refConvId).2 = .ok ans := by
  cases hfe : firstUploadError env.heads env.upload
      (extractRefFileUrls messages) with
  | some e => simp [attemptOnce, hfe] at hok
  | none =>
    cases hdev : env.device with
    | error e => simp [attemptOnce, hfe, hdev] at hok
    | ok d =>
      cases hop : env.openStream with
      | error e => simp [attemptOnce, hfe, hdev, hop] at hok
      | ok uu =>
        cases htr : env.transcode with
        | error e => simp [attemptOnce, hfe, hdev, hop, htr] at hok
        | ok a =>
          simp only [attemptOnce, hfe, hdev, hop, htr] at hok
          replace hok : a = ans := by simpa using hok
          subst hok
          refine ⟨?_, ?_, ?_⟩
          · simp [attemptOnce, hfe, hdev, hop, htr, scheduleRemove]
          · simp [attemptOnce, hfe, hdev, hop, htr, scheduleRemove]
          · intro bflag
            simp [attemptOnce, hfe, hdev, hop, htr]

/-- A fully successful attempt producing conversation `conv1`. -/
def sampleOkEnv : AttemptEnv where
  heads := fun _ => (false, ⟨200, none⟩)
  upload := fun _ => .ok ⟨2, [], []⟩
  device := .ok ⟨"dev", "uid", 0⟩
  openStream := .ok ()
  transcode := .ok ⟨"conv1".toList⟩
  removeFails := false

/-- C5 counterexample: with a valid reference conversation id (a
continuation of an existing thread), a successful turn still schedules
`removeConversation` — the `!refConvId` in
`removeConversation(...).catch(err => !refConvId && console.error(err))`
only suppresses the error log, it does not skip the deletion. -/
theorem cleanup_not_skipped_counterexample :
    normalizeRefConvId "123456789012345678".toList ≠ []
    ∧ CallAction.removeConv "conv1".toList
        ∈ (attemptOnce sampleOkEnv sampleMessages
            "123456789012345678".toList).1 := by
  decide

theorem cleanup_always_scheduled_witness :
    ((attemptOnce sampleOkEnv sampleMessages
        "123456789012345678".toList).2 = .ok ⟨"conv1".toList⟩)
    ∧ (CallAction.removeConv (Answer.mk "conv1".toList).id
        ∈ (attemptOnce sampleOkEnv sampleMessages
            "123456789012345678".toList).1
      ∧ (CallAction.logRemoveErr
          ∈ (attemptOnce sampleOkEnv sampleMessages
              "123456789012345678".toList).1
        ↔ sampleOkEnv.removeFails = true
          ∧ normalizeRefConvId "123456789012345678".toList = [])
      ∧ ∀ bflag : Bool,
          (attemptOnce { sampleOkEnv with removeFails := bflag }
            sampleMessages "123456789012345678".toList).2
            = .ok ⟨"conv1".toList⟩) :=
  ⟨by decide,
   cleanup_always_scheduled sampleOkEnv sampleMessages
     "123456789012345678".toList ⟨"conv1".toList⟩ (by decide)⟩

/-- A latest message referencing one remote attachment URL. -/
def sampleFileMessages : List ChatMessage :=
  [⟨"user".toList, .parts [⟨"file".toList, some "http://x/y".toList, none⟩]⟩]

/-- Every attempt sees the attachment's HEAD request answer 404. -/
def sample404Env : AttemptEnv where
  heads := fun _ => (false, ⟨404, none⟩)
  upload := fun _ => .ok ⟨2, [], []⟩
  device := .ok ⟨"dev", "uid", 0⟩
  openStream := .ok ()
  transcode := .ok ⟨"conv1".toList⟩
  removeFails := false

def sample404Envs : Nat → AttemptEnv := fun _ => sample404Env

/-- C6 counterexample: a call whose attachment URL answers HTTP 404 is NOT
surfaced immediately — the generic `.catch` retries it like any other
failure, so the call's trace contains retry delays before the
`FileValidationError` is finally surfaced. -/
theorem file_error_retried_counterexample :
    (createCompletionM sample404Envs sampleFileMessages []).2
        = .error (.fileUrlInvalid "http://x/y".toList 404)
    ∧ CallAction.slept RETRY_DELAY
        ∈ (createCompletionM sample404Envs sampleFileMessages []).1 := by
  decide

/-- C6 (amended): whenever the URL pre-check rejects the latest message's
single attachment — which it does exactly when the HEAD answer has status
≥ 400 (`API_FILE_URL_INVALID`) or a declared `content-length` above the
100 MiB bound (`API_FILE_EXECEEDS_SIZE`) — every attempt of the call fails
with that `FileValidationError` before any upstream stream is opened; the
error is retried like any other failure (three 5-second delays) and only
then surfaced to the caller. -/
theorem file_validation_before_stream (envs : Nat → AttemptEnv)
    (messages : List ChatMessage) (refConvId : Str) (u : Str)
    (status : Nat) (cl : Option Nat) (err : APIError)
    (hurl : extractRefFileUrls messages = [u])
    (hhead : ∀ k, (envs k).heads u = (false, ⟨status, cl⟩))
    (hchk : checkFileUrl false ⟨status, cl⟩ u = .error err) :
    (∀ k, attemptOnce (envs k) messages refConvId
      = ([], .error (false, err)))
    ∧ createCompletionM envs messages refConvId =
        ([CallAction.slept RETRY_DELAY, CallAction.slept RETRY_DELAY,
          CallAction.slept RETRY_DELAY], .error err)
    ∧ CallAction.openedStream ∉ (createCompletionM envs messages refConvId).1
    ∧ (400 ≤ status → err = .fileUrlInvalid u status)
    ∧ (∀ n : Nat, cl = some n → status < 400 → FILE_MAX_SIZE < n →
        err = .fileExceedsSize u)
    ∧ (∀ (url : Str) (st' n : Nat), st' < 400 → FILE_MAX_SIZE < n →
        checkFileUrl false ⟨st', some n⟩ url
          = .error (.fileExceedsSize url))
    ∧ (∀ (url : Str) (st' : Nat) (cl' : Option Nat), 400 ≤ st' →
        checkFileUrl false ⟨st', cl'⟩ url
          = .error (.fileUrlInvalid url st')) := by
  have hA : ∀ k, attemptOnce (envs k) messages refConvId
      = ([], .error (false, err)) := by
    intro k
    simp [attemptOnce, hurl, firstUploadError, uploadFileM, hhead k, hchk]
  have hrun : createCompletionM envs messages refConvId =
      ([CallAction.slept RETRY_DELAY, CallAction.slept RETRY_DELAY,
        CallAction.slept RETRY_DELAY], .error err) := by
    have hA3 := runAttempts_zero envs messages refConvId 3 [] false _ (hA 3)
    have hA2 : runAttempts envs messages refConvId 1 2 =
        ([CallAction.slept RETRY_DELAY], .error err) := by
      conv_lhs => rw [show (1 : Nat) = 0 + 1 from rfl]
      rw [runAttempts_succ_fail envs messages refConvId 2 0 [] false _ (hA 2)
        (by decide)]
      rw [hA3]
      simp
    have hA1 : runAttempts envs messages refConvId 2 1 =
        ([CallAction.slept RETRY_DELAY, CallAction.slept RETRY_DELAY],
         .error err) := by
      conv_lhs => rw [show (2 : Nat) = 1 + 1 from rfl]
      rw [runAttempts_succ_fail envs messages refConvId 1 1 [] false _ (hA 1)
        (by decide)]
      rw [hA2]
      simp
    show runAttempts envs messages refConvId MAX_RETRY_COUNT 0 = _
    conv_lhs => rw [show MAX_RETRY_COUNT = 2 + 1 from rfl]
    rw [runAttempts_succ_fail envs messages refConvId 0 2 [] false _ (hA 0)
      (by decide)]
    rw [hA1]
    simp
  refine ⟨hA, hrun, ?_, ?_, ?_, ?_, ?_⟩
  · rw [hrun]
    simp
  · intro h
    have hc := hchk
    simp [checkFileUrl, h] at hc
    exact hc.symm
  · intro n hcl hlt hn
    have hc := hchk
    rw [hcl] at hc
    simp [checkFileUrl, show ¬ 400 ≤ status from by omega, hn] at hc
    exact hc.symm
  · intro url st' n h1 h2
    simp [checkFileUrl, show ¬ 400 ≤ st' from by omega, h2]
  · intro url st' cl' h
    simp [checkFileUrl, h]

/-- Every attempt sees the attachment's HEAD request declare a
`content-length` just above the 100 MiB bound. -/
def sampleBigEnv : AttemptEnv where
  heads := fun _ => (false, ⟨200, some (FILE_MAX_SIZE + 1)⟩)
  upload := fun _ => .ok ⟨2, [], []⟩
  device := .ok ⟨"dev", "uid", 0⟩
  openStream := .ok ()
  transcode := .ok ⟨"conv1".toList⟩
  removeFails := false

def sampleBigEnvs : Nat → AttemptEnv := fun _ => sampleBigEnv

theorem sampleBigHeads :
    sampleBigEnv.heads "http://x/y".toList
      = (false, ⟨200, some (FILE_MAX_SIZE + 1)⟩) := rfl

theorem sampleBigCheck :
    checkFileUrl false ⟨200, some (FILE_MAX_SIZE + 1)⟩ "http://x/y".toList
      = .error (.fileExceedsSize "http://x/y".toList) := by
  decide

theorem file_validation_before_stream_witness :
    (extractRefFileUrls sampleFileMessages = ["http://x/y".toList]
      ∧ checkFileUrl false ⟨200, some (FILE_MAX_SIZE + 1)⟩
          "http://x/y".toList
          = .error (.fileExceedsSize "http://x/y".toList))
    ∧ ((∀ k, attemptOnce (sampleBigEnvs k) sampleFileMessages []
        = ([], .error (false, .fileExceedsSize "http://x/y".toList)))
      ∧ createCompletionM sampleBigEnvs sampleFileMessages [] =
          ([CallAction.slept RETRY_DELAY, CallAction.slept RETRY_DELAY,
            CallAction.slept RETRY_DELAY],
           .error (.fileExceedsSize "http://x/y".toList))
      ∧ CallAction.openedStream
          ∉ (createCompletionM sampleBigEnvs sampleFileMessages []).1
      ∧ (400 ≤ 200 → APIError.fileExceedsSize "http://x/y".toList
          = .fileUrlInvalid "http://x/y".toList 200)
      ∧ (∀ n : Nat, (some (FILE_MAX_SIZE + 1) : Option Nat) = some n →
          200 < 400 → FILE_MAX_SIZE < n →
          APIError.fileExceedsSize "http://x/y".toList
            = .fileExceedsSize "http://x/y".toList)
      ∧ (∀ (url : Str) (st' n : Nat), st' < 400 → FILE_MAX_SIZE < n →
          checkFileUrl false ⟨st', some n⟩ url
            = .error (.fileExceedsSize url))
      ∧ (∀ (url : Str) (st' : Nat) (cl' : Option Nat), 400 ≤ st' →
          checkFileUrl false ⟨st', cl'⟩ url
            = .error (.fileUrlInvalid url st'))) :=
  ⟨⟨by decide, sampleBigCheck⟩,
   file_validation_before_stream sampleBigEnvs sampleFileMessages []
     "http://x/y".toList 200 (some (FILE_MAX_SIZE + 1))
     (.fileExceedsSize "http://x/y".toList)
     (by decide) (fun _ => sampleBigHeads) sampleBigCheck⟩

/-! ## VoiceSynthesisPipeline (`src/api/controllers/audio.ts`,
`createSpeech` lines 34-109)

Under the per-credential `voiceLock`, the persona is switched and then a
status endpoint is polled until `requestStatus ≥ 2` or 30 seconds have
elapsed since the loop started, whichever comes first; expiry throws the
synthesis-timeout error.  The `async-lock` scope itself is a third-party
dependency, modelled from the spec: the scope is released when the locked
task settles, on success and on error alike. -/

/-- The 30000 ms bound of `Date.now() - startTime > 30000`. -/
def SYNTH_TIMEOUT_MS : Nat := 30000

inductive SpeechErr where
  /-- `new Error("语音生成超时")` -/
  | timeout
  /-- `checkResult` rejection while polling -/
  | upstream (msg : Str)
deriving DecidableEq, Repr

/-- The `while (requestStatus < 2)` loop of audio.ts lines 68-81: at
iteration `j` the current time is `t j`; if more than 30 s have passed the
timeout error is thrown, otherwise the status endpoint is polled
(`poll j` = parsed `{requestStatus, result}` or a checkResult rejection)
and the loop continues while the status stays below 2.  Fuel only bounds
the recursion (`none` = fuel exhausted, unreachable under the theorems'
hypotheses). -/
def synthLoop (t : Nat → Nat) (poll : Nat → Except Str (Nat × List Str))
    (startTime : Nat) :
    Nat → Nat → Option (Except SpeechErr (List Str))
  | 0, _ => none
  | fuel + 1, j =>
    if t j - startTime > SYNTH_TIMEOUT_MS then some (.error .timeout)
    else
      match poll j with
      | .error m => some (.error (.upstream m))
      | .ok (s, urls) =>
        if s < 2 then synthLoop t poll startTime fuel (j + 1)
        else some (.ok urls)

/-- Modelled from the spec: the per-credential mutual-exclusion scope
(`voiceLock.acquire(token, fn)` from the third-party `async-lock` package,
not part of this repository's sources) runs the task while holding the
token's scope and releases it when the task settles — on success and on
error alike.  Returns the task's outcome and whether the scope is still
held afterwards. -/
def voiceLockRun {α : Type} (task : Except SpeechErr α) :
    Except SpeechErr α × Bool :=
  (task, false)

/-- The synthesis section of `createSpeech`: the polling loop run inside
the per-credential lock scope. -/
def createSpeechSynth (t : Nat → Nat)
    (poll : Nat → Except Str (Nat × List Str)) (startTime fuel : Nat) :
    Option (Except SpeechErr (List Str) × Bool) :=
  (synthLoop t poll startTime fuel 0).map voiceLockRun

theorem synthLoop_timeout (t : Nat → Nat)
    (poll : Nat → Except Str (Nat × List Str)) (startTime : Nat) (k : Nat)
    (hpoll : ∀ j, j < k → ∃ s urls, poll j = .ok (s, urls) ∧ s < 2)
    (hbefore : ∀ j, j < k → t j - startTime ≤ SYNTH_TIMEOUT_MS)
    (hk : t k - startTime > SYNTH_TIMEOUT_MS) :
    ∀ (fuel j0 : Nat), j0 ≤ k → k < j0 + fuel →
      synthLoop t poll startTime fuel j0 = some (.error .timeout) := by
  intro fuel
  induction fuel with
  | zero =>
    intro j0 hj0 hlt
    omega
  | succ f ih =>
    intro j0 hj0 hlt
    by_cases hj : j0 = k
    · subst hj
      unfold synthLoop
      rw [if_pos hk]
    · have hj0k : j0 < k := by omega
      obtain ⟨s, urls, hp, hs⟩ := hpoll j0 hj0k
      have hnt : ¬ t j0 - startTime > SYNTH_TIMEOUT_MS := by
        have := hbefore j0 hj0k
        omega
      unfold synthLoop
      rw [if_neg hnt, hp]
      simp only [if_pos hs]
      exact ih (j0 + 1) (by omega) (by omega)

/-- C8: if the synthesis-status polls keep reporting an unfinished status
and the clock passes the 30-second bound at some poll iteration, the
synthesis section raises the synthesis-timeout error AND the
per-credential mutual-exclusion scope is released (so a later voice
request for the same credential can acquire it). -/
theorem speech_timeout_releases_lock (t : Nat → Nat)
    (poll : Nat → Except Str (Nat × List Str)) (startTime k fuel : Nat)
    (hpoll : ∀ j, j < k → ∃ s urls, poll j = .ok (s, urls) ∧ s < 2)
    (hbefore : ∀ j, j < k → t j - startTime ≤ SYNTH_TIMEOUT_MS)
    (hk : t k - startTime > SYNTH_TIMEOUT_MS)
    (hfuel : k < fuel) :
    createSpeechSynth t poll startTime fuel
      = some (.error .timeout, false) := by
  unfold createSpeechSynth
  rw [synthLoop_timeout t poll startTime k hpoll hbefore hk fuel 0
    (by omega) (by omega)]
  rfl

theorem speech_timeout_releases_lock_witness :
    ((∀ j, j < 1 → ∃ s urls,
        (fun _ : Nat => (Except.ok (0, ([] : List Str)) : Except Str _)) j
          = .ok (s, urls) ∧ s < 2)
      ∧ (∀ j, j < 1 →
          (fun j : Nat => j * 40000) j - 0 ≤ SYNTH_TIMEOUT_MS)
      ∧ (fun j : Nat => j * 40000) 1 - 0 > SYNTH_TIMEOUT_MS
      ∧ 1 < 2)
    ∧ createSpeechSynth (fun j => j * 40000)
        (fun _ => .ok (0, [])) 0 2
        = some (.error .timeout, false) :=
  ⟨⟨fun j hj => ⟨0, [], rfl, by omega⟩,
    fun j hj => by interval_cases j; simp [SYNTH_TIMEOUT_MS],
    by simp [SYNTH_TIMEOUT_MS], by omega⟩,
   speech_timeout_releases_lock (fun j => j * 40000)
     (fun _ => .ok (0, [])) 0 1 2
     (fun j hj => ⟨0, [], rfl, by omega⟩)
     (fun j hj => by interval_cases j; simp [SYNTH_TIMEOUT_MS])
     (by simp [SYNTH_TIMEOUT_MS]) (by omega)⟩

/-! ## Voice-name remapping (`src/unnamed/part_001`, lines 13-47)

`REPLACE_AUDIO_MODEL_ENV = (env.REPLACE_AUDIO_MODEL || "").split(",").map(trim)`,
`REPLACE_AUDIO_MODEL = Object.values(modelMap["tts-1"]).map((v, i) =>
REPLACE_AUDIO_MODEL_ENV[i] || v)`, and the `/speech` route replaces a
standard OpenAI voice name by
`REPLACE_AUDIO_MODEL[VOICE_TO_MODEL_INDEX[voice]] || "male-botong"`. -/

/-- JS `String.prototype.split(",")`. -/
def splitComma : Str → List Str
  | [] => [[]]
  | ch :: r =>
    if ch = ',' then [] :: splitComma r
    else
      match splitComma r with
      | h :: tl => (ch :: h) :: tl
      | [] => [[ch]]

theorem splitComma_single (s : Str) (h : ',' ∉ s) : splitComma s = [s] := by
  induction s with
  | nil => rfl
  | cons ch r ih =>
    have hc : ¬ ch = ',' := fun hh => h (hh ▸ List.mem_cons_self ch r)
    have hr : ',' ∉ r := fun hh => h (List.mem_cons_of_mem ch hh)
    simp [splitComma, hc, ih hr]

theorem splitComma_append (a rest : Str) (ha : ',' ∉ a) :
    splitComma (a ++ ',' :: rest) = a :: splitComma rest := by
  induction a with
  | nil => simp [splitComma]
  | cons ch r ih =>
    have hc : ¬ ch = ',' := fun hh => ha (hh ▸ List.mem_cons_self ch r)
    have hr : ',' ∉ r := fun hh => ha (List.mem_cons_of_mem ch hh)
    rw [List.cons_append]
    conv_lhs => unfold splitComma
    rw [if_neg hc, ih hr]

/-- JS `String.prototype.trim`. -/
def trimStr (s : Str) : Str :=
  ((s.dropWhile Char.isWhitespace).reverse.dropWhile Char.isWhitespace).reverse

/-- JS `x || v` for a string-or-undefined `x` (with `[]` standing for both
`""` and a missing element). -/
def jsOr (x dflt : Str) : Str := if x = [] then dflt else x

/-- Modelled from the spec: `src/api/consts/model-map.ts` is not among the
available sources; the documented `tts-1` mapping sends the six standard
OpenAI voices, in order, to the default personas male-botong, Podcast_girl,
boyan_new_hailuo, female-shaonv, YaeMiko_hailuo and xiaoyi_mix_hailuo (the
same list as `tem_replace_audio_model` in `src/api/routes/audio.ts`). -/
def modelMapTts1 : List (Str × Str) :=
  [("alloy".toList, "male-botong".toList),
   ("echo".toList, "Podcast_girl".toList),
   ("fable".toList, "boyan_new_hailuo".toList),
   ("onyx".toList, "female-shaonv".toList),
   ("nova".toList, "YaeMiko_hailuo".toList),
   ("shimmer".toList, "xiaoyi_mix_hailuo".toList)]

/-- `(environment.envVars["REPLACE_AUDIO_MODEL"] || "").split(",").map(trim)`. -/
def replaceAudioModelEnv (env : Option Str) : List Str :=
  (splitComma (env.getD [])).map trimStr

/-- `values.map((v, i) => e[i] || v)`, the positional overlay of the
environment entries over the default personas. -/
def overlayEnv (e : List Str) : Nat → List Str → List Str
  | _, [] => []
  | i, v :: vs => jsOr (e.getD i []) v :: overlayEnv e (i + 1) vs

/-- `REPLACE_AUDIO_MODEL` as computed in part_001 lines 25-27. -/
def replaceAudioModel (env : Option Str) : List Str :=
  overlayEnv (replaceAudioModelEnv env) 0 (modelMapTts1.map Prod.snd)

/-- The `/speech` route's voice substitution (part_001 lines 43-47):
a standard voice name indexes `REPLACE_AUDIO_MODEL`, falling back to
`"male-botong"`; any other name passes through. -/
def resolveVoice (env : Option Str) (voice : Str) : Str :=
  match (modelMapTts1.map Prod.fst).findIdx? (fun k => k == voice) with
  | none => voice
  | some i => jsOr ((replaceAudioModel env).getD i []) ("male-botong".toList)

/-- C9: with `REPLACE_AUDIO_MODEL` unset, voice `alloy` maps to the default
persona `male-botong`; with an override holding exactly the three entries
`a,b,c`, voices alloy, echo and fable map to `a`, `b`, `c` in order, while
onyx, nova and shimmer keep their default personas female-shaonv,
YaeMiko_hailuo and xiaoyi_mix_hailuo. -/
theorem voice_mapping (a b c : Str)
    (hna : a ≠ []) (hnb : b ≠ []) (hnc : c ≠ [])
    (hta : trimStr a = a) (htb : trimStr b = b) (htc : trimStr c = c)
    (hca : ',' ∉ a) (hcb : ',' ∉ b) (hcc : ',' ∉ c) :
    resolveVoice none "alloy".toList = "male-botong".toList
    ∧ resolveVoice (some (a ++ ',' :: (b ++ ',' :: c))) "alloy".toList = a
    ∧ resolveVoice (some (a ++ ',' :: (b ++ ',' :: c))) "echo".toList = b
    ∧ resolveVoice (some (a ++ ',' :: (b ++ ',' :: c))) "fable".toList = c
    ∧ resolveVoice (some (a ++ ',' :: (b ++ ',' :: c))) "onyx".toList
        = "female-shaonv".toList
    ∧ resolveVoice (some (a ++ ',' :: (b ++ ',' :: c))) "nova".toList
        = "YaeMiko_hailuo".toList
    ∧ resolveVoice (some (a ++ ',' :: (b ++ ',' :: c))) "shimmer".toList
        = "xiaoyi_mix_hailuo".toList := by
  have hsplit : splitComma (a ++ ',' :: (b ++ ',' :: c)) = [a, b, c] := by
    rw [splitComma_append a _ hca, splitComma_append b _ hcb,
      splitComma_single c hcc]
  have henv : replaceAudioModelEnv (some (a ++ ',' :: (b ++ ',' :: c)))
      = [a, b, c] := by
    simp [replaceAudioModelEnv, hsplit, hta, htb, htc]
  have hmod : replaceAudioModel (some (a ++ ',' :: (b ++ ',' :: c)))
      = [a, b, c, "female-shaonv".toList, "YaeMiko_hailuo".toList,
         "xiaoyi_mix_hailuo".toList] := by
    simp [replaceAudioModel, henv, modelMapTts1, overlayEnv, jsOr,
      hna, hnb, hnc]
  have hstep : ∀ (i : Nat) (voice : Str),
      (modelMapTts1.map Prod.fst).findIdx? (fun k => k == voice) = some i →
      resolveVoice (some (a ++ ',' :: (b ++ ',' :: c))) voice
        = jsOr ((replaceAudioModel
            (some (a ++ ',' :: (b ++ ',' :: c)))).getD i [])
            ("male-botong".toList) := by
    intro i voice hi
    unfold resolveVoice
    rw [hi]
  refine ⟨by decide, ?_, ?_, ?_, ?_, ?_, ?_⟩
  · rw [hstep 0 _ (by decide), hmod]
    simp [jsOr, hna]
  · rw [hstep 1 _ (by decide), hmod]
    simp [jsOr, hnb]
  · rw [hstep 2 _ (by decide), hmod]
    simp [jsOr, hnc]
  · rw [hstep 3 _ (by decide), hmod]
    simp [jsOr]
  · rw [hstep 4 _ (by decide), hmod]
    simp [jsOr]
  · rw [hstep 5 _ (by decide), hmod]
    simp [jsOr]

theorem voice_mapping_witness :
    ("p1".toList ≠ ([] : Str) ∧ trimStr "p1".toList = "p1".toList
      ∧ ',' ∉ "p1".toList)
    ∧ (resolveVoice none "alloy".toList = "male-botong".toList
      ∧ resolveVoice
          (some ("p1".toList ++ ',' :: ("p2".toList ++ ',' :: "p3".toList)))
          "alloy".toList = "p1".toList
      ∧ resolveVoice
          (some ("p1".toList ++ ',' :: ("p2".toList ++ ',' :: "p3".toList)))
          "echo".toList = "p2".toList
      ∧ resolveVoice
          (some ("p1".toList ++ ',' :: ("p2".toList ++ ',' :: "p3".toList)))
          "fable".toList = "p3".toList
      ∧ resolveVoice
          (some ("p1".toList ++ ',' :: ("p2".toList ++ ',' :: "p3".toList)))
          "onyx".toList = "female-shaonv".toList
      ∧ resolveVoice
          (some ("p1".toList ++ ',' :: ("p2".toList ++ ',' :: "p3".toList)))
          "nova".toList = "YaeMiko_hailuo".toList
      ∧ resolveVoice
          (some ("p1".toList ++ ',' :: ("p2".toList ++ ',' :: "p3".toList)))
          "shimmer".toList = "xiaoyi_mix_hailuo".toList) :=
  ⟨⟨by decide, by decide, by decide⟩,
   voice_mapping "p1".toList "p2".toList "p3".toList
     (by decide) (by decide) (by decide) (by decide) (by decide) (by decide)
     (by decide) (by decide) (by decide)⟩

/-! ## Transcription result stream (`src/api/controllers/audio.ts`,
`receiveTrasciptionResult` lines 172-211)

Events are processed in arrival order; `status_code == 1200041` resolves
the promise with `""` and closes the stream, any other non-zero
`status_code` rejects, the first `asr_chunk` event resolves with its
`data.text` and closes the stream, and the stream closing first resolves
with the accumulated text, which is always `""` (the accumulating branch
is commented out in the source). -/

structure TrEvent where
  eventName : String
  status_code : Int
  err_message : Str
  dataText : Str
deriving DecidableEq, Repr

/-- The promise settled by `receiveTrasciptionResult` over the parsed event
sequence, together with whether `stream.close()` was invoked.  Only the
first settlement counts (a promise settles once); an exhausted event list
models the stream's `close` event, resolving `""`. -/
def receiveTranscriptionResult : List TrEvent → Except Str Str × Bool
  | [] => (.ok [], false)
  | ev :: rest =>
    if ev.status_code = 1200041 then (.ok [], true)
    else if ev.status_code ≠ 0 then (.error ev.err_message, false)
    else if ev.eventName = "asr_chunk" then (.ok ev.dataText, true)
    else receiveTranscriptionResult rest

/-- C10: `createTranscriptions` resolves with the `text` of the first
`asr_chunk` event and then closes the stream; an event with upstream
`status_code` 1200041 resolves with the empty string (closing the stream)
instead of rejecting; and a stream that closes before any such event
resolves with the empty string. -/
theorem transcription_first_chunk :
    (∀ (pre : List TrEvent) (ev : TrEvent) (post : List TrEvent),
      (∀ x ∈ pre, x.status_code = 0 ∧ x.eventName ≠ "asr_chunk") →
      ev.status_code = 0 → ev.eventName = "asr_chunk" →
      receiveTranscriptionResult (pre ++ ev :: post) = (.ok ev.dataText, true))
    ∧ (∀ (pre : List TrEvent) (ev : TrEvent) (post : List TrEvent),
      (∀ x ∈ pre, x.status_code = 0 ∧ x.eventName ≠ "asr_chunk") →
      ev.status_code = 1200041 →
      receiveTranscriptionResult (pre ++ ev :: post) = (.ok [], true))
    ∧ (∀ evs : List TrEvent,
      (∀ x ∈ evs, x.status_code = 0 ∧ x.eventName ≠ "asr_chunk") →
      receiveTranscriptionResult evs = (.ok [], false)) := by
  have hskip : ∀ (pre : List TrEvent) (tail : List TrEvent),
      (∀ x ∈ pre, x.status_code = 0 ∧ x.eventName ≠ "asr_chunk") →
      receiveTranscriptionResult (pre ++ tail)
        = receiveTranscriptionResult tail := by
    intro pre
    induction pre with
    | nil => intro tail _; rfl
    | cons x r ih =>
      intro tail hx
      have h1 := hx x (List.mem_cons_self x r)
      have hns : ¬ x.status_code = 1200041 := by
        rw [h1.1]
        decide
      have hr : ∀ y ∈ r, y.status_code = 0 ∧ y.eventName ≠ "asr_chunk" :=
        fun y hy => hx y (List.mem_cons_of_mem x hy)
      rw [List.cons_append]
      conv_lhs => unfold receiveTranscriptionResult
      rw [if_neg hns, if_neg (by simp [h1.1]), if_neg h1.2]
      exact ih tail hr
  refine ⟨?_, ?_, ?_⟩
  · intro pre ev post hpre hz hname
    rw [hskip pre (ev :: post) hpre]
    unfold receiveTranscriptionResult
    rw [if_neg (by simp [hz]), if_neg (by simp [hz]), if_pos hname]
  · intro pre ev post hpre hcode
    rw [hskip pre (ev :: post) hpre]
    unfold receiveTranscriptionResult
    rw [if_pos hcode]
  · intro evs hevs
    have := hskip evs [] hevs
    simpa using this

def sampleTrPre : TrEvent := ⟨"meta", 0, [], []⟩

def sampleTrChunk : TrEvent := ⟨"asr_chunk", 0, [], "hello".toList⟩

def sampleTrAbort : TrEvent := ⟨"meta", 1200041, [], []⟩

theorem transcription_first_chunk_witness :
    ((∀ x ∈ [sampleTrPre], x.status_code = 0 ∧ x.eventName ≠ "asr_chunk")
      ∧ sampleTrChunk.status_code = 0
      ∧ sampleTrChunk.eventName = "asr_chunk"
      ∧ sampleTrAbort.status_code = 1200041)
    ∧ receiveTranscriptionResult [sampleTrPre, sampleTrChunk]
        = (.ok sampleTrChunk.dataText, true)
    ∧ receiveTranscriptionResult [sampleTrPre, sampleTrAbort]
        = (.ok [], true)
    ∧ receiveTranscriptionResult [sampleTrPre] = (.ok [], false) :=
  ⟨⟨by decide, by decide, by decide, by decide⟩,
   transcription_first_chunk.1 [sampleTrPre] sampleTrChunk []
     (by decide) (by decide) (by decide),
   transcription_first_chunk.2.1 [sampleTrPre] sampleTrAbort []
     (by decide) (by decide),
   transcription_first_chunk.2.2 [sampleTrPre] (by decide)⟩
